import Mathlib

/-!
Verification development for the INCIScraper database dashboard core.

The development shallowly embeds the table-browser core of the repository:
the identifier allow-list check (sanitizeTableName), the cell-value
normalization algorithm (normalizeValue), the schema introspection
(getTableMetadata), the paginated reader (the GET route handler) and the
batch mutation engine (the POST route handler), together with the
client-side editable-grid state machine.

Strings from the JavaScript runtime are modelled through their character
lists, with ASCII case conversion and trimming implemented by structural
recursion so that every definition evaluates inside the kernel.  The
JavaScript number domain is modelled on its integer fragment: the
conversion Number(string) is embedded for the decimal-integer literals the
handlers exercise, with the empty (or all-whitespace) string converting to
0 exactly as in JavaScript, and NaN modelled as Option.none.  The SQLite
storage layer is modelled by explicit row lists; the NOT NULL column
constraint serves as the representative storage-level error, and the
transaction wrapper of the driver is modelled by the Except monad with the
caller restoring the original rows on error (ROLLBACK).
-/

namespace INCIScraper

/-- Whitespace test used by the modelled JavaScript trim operation. -/
def isWS (c : Char) : Bool := c == ' ' || c == '\t' || c == '\n' || c == '\r'

/-- Model of String.prototype.trim on character lists (ASCII whitespace). -/
def trimChars (cs : List Char) : List Char :=
  ((cs.dropWhile isWS).reverse.dropWhile isWS).reverse

/-- ASCII lower-casing of one character, as toLowerCase acts on ASCII. -/
def lowerChar (c : Char) : Char :=
  if 'A' ≤ c && c ≤ 'Z' then Char.ofNat (c.toNat + 32) else c

/-- ASCII upper-casing of one character, as toUpperCase acts on ASCII. -/
def upperChar (c : Char) : Char :=
  if 'a' ≤ c && c ≤ 'z' then Char.ofNat (c.toNat - 32) else c

/-- Tests whether the second list is an initial segment of the first. -/
def startsWithList : List Char → List Char → Bool
  | _, [] => true
  | [], _ :: _ => false
  | a :: as, b :: bs => a == b && startsWithList as bs

/-- Model of String.prototype.includes: contiguous occurrence of pat in cs. -/
def listIncludes (cs pat : List Char) : Bool :=
  match cs with
  | [] => pat.isEmpty
  | _ :: rest => startsWithList cs pat || listIncludes rest pat

/-- Decimal digit run to a natural number. -/
def digitsToNat (cs : List Char) : Nat :=
  cs.foldl (fun acc c => acc * 10 + (c.toNat - 48)) 0

/-- Model of the JavaScript Number(string) conversion on the fragment the
route handlers exercise: surrounding whitespace is ignored, the empty or
all-whitespace string converts to 0, an optional sign followed by decimal
digits converts to the corresponding integer, and every other string
yields NaN, modelled as none.  Fractional, hexadecimal and exponent
literals lie outside the fragment the claims exercise. -/
def jsNumberChars (cs : List Char) : Option Int :=
  let t := trimChars cs
  match t with
  | [] => some 0
  | '-' :: rest =>
      if !rest.isEmpty && rest.all Char.isDigit then some (-(digitsToNat rest : Int)) else none
  | '+' :: rest =>
      if !rest.isEmpty && rest.all Char.isDigit then some ((digitsToNat rest : Int)) else none
  | _ =>
      if t.all Char.isDigit then some ((digitsToNat t : Int)) else none

/-- Number(string) on Lean strings. -/
def jsNumber (s : String) : Option Int := jsNumberChars s.data

/-- Scalar values flowing between the JSON surface and the storage layer:
text, (integer) numbers and the null value; the SQLite storage classes the
claims exercise. -/
inductive JSValue where
  | str (s : String)
  | num (n : Int)
  | null
deriving DecidableEq, Repr

/-- Model of the JavaScript expression x || d for a numeric x: NaN (none)
and 0 are falsy and select the default. -/
def jsOr (x : Option Int) (dflt : Int) : Int :=
  match x with
  | some v => if v = 0 then dflt else v
  | none => dflt

/-- Number(searchParams.get(p)): an absent parameter is null, and
Number(null) is 0; a present parameter is converted as a string. -/
def queryNumber (p : Option String) : Option Int :=
  match p with
  | none => some 0
  | some s => jsNumber s

/-- The effective page limit of the GET handler, from source line
limit = Math.max(1, Math.min(500, Number(searchParams.get("limit")) || 50)). -/
def effectiveLimit (p : Option String) : Int :=
  max 1 (min 500 (jsOr (queryNumber p) 50))

/-- The effective page offset of the GET handler, from source line
offset = Math.max(0, Number(searchParams.get("offset")) || 0). -/
def effectiveOffset (p : Option String) : Int :=
  max 0 (jsOr (queryNumber p) 0)

/-- The normalization algorithm normalizeValue(value, columnType) of the
POST route: applied only to text values; the literal NULL (any casing,
after trimming) becomes the null value; a column type containing int (or
real, floa, doub) attempts the numeric parse; a type containing bool maps
the usual truthy and falsy words to 1 and 0; an empty trimmed value with a
declared non-text type becomes null; otherwise the original text passes
through.  Substring tests run on the lower-cased type, as in the source. -/
def normalizeValue (value : JSValue) (columnType : Option String) : JSValue :=
  match value with
  | JSValue.str v =>
    let trimmed := trimChars v.data
    if trimmed.map upperChar == "NULL".data then JSValue.null
    else
      let lower := (columnType.getD "").data.map lowerChar
      match (if listIncludes lower "int".data then jsNumberChars trimmed else none) with
      | some n => JSValue.num n
      | none =>
        match (if listIncludes lower "real".data || listIncludes lower "floa".data ||
                  listIncludes lower "doub".data then jsNumberChars trimmed else none) with
        | some n => JSValue.num n
        | none =>
          if listIncludes lower "bool".data &&
              ["1".data, "true".data, "on".data, "yes".data].contains (trimmed.map lowerChar) then
            JSValue.num 1
          else if listIncludes lower "bool".data &&
              ["0".data, "false".data, "off".data, "no".data].contains (trimmed.map lowerChar) then
            JSValue.num 0
          else if trimmed.isEmpty && !lower.isEmpty && !listIncludes lower "char".data &&
              !listIncludes lower "text".data && !listIncludes lower "clob".data then
            JSValue.null
          else JSValue.str v
  | other => other

/-- Character class of the identifier allow-list [A-Za-z0-9_]. -/
def isTableNameChar (c : Char) : Bool :=
  ('A' ≤ c && c ≤ 'Z') || ('a' ≤ c && c ≤ 'z') || ('0' ≤ c && c ≤ '9') || c == '_'

/-- The identifier allow-list check sanitizeTableName: the full-match
test of a name against [A-Za-z0-9_]+ holds exactly when the character
list is non-empty and every character lies in the class. -/
def sanitizeTableName (table : String) : Option String :=
  if !table.data.isEmpty && table.data.all isTableNameChar then some table else none

/-- One row of PRAGMA table_info, the Column Descriptor of the spec. -/
structure ColumnInfo where
  cid : Nat
  name : String
  type : String
  notnull : Nat
  dflt_value : JSValue
  pk : Nat
deriving DecidableEq, Repr

/-- A stored row: a finite mapping from column name to scalar value.  Rows
of a table without a declared primary key additionally carry the implicit
row identifier under the reserved name __rowid__. -/
abbrev Row := List (String × JSValue)

/-- The stored contents of one table: its schema and its rows. -/
structure TableDef where
  schema : List ColumnInfo
  rows : List Row
deriving DecidableEq, Repr

/-- The database file: named tables. -/
structure Db where
  tables : List (String × TableDef)
deriving DecidableEq, Repr

/-- Looks a table up by name. -/
def dbLookup (db : Db) (name : String) : Option TableDef :=
  (db.tables.find? (fun p => p.1 == name)).map (fun p => p.2)

/-- Identity resolution of getTableMetadata: the source line
primary = info.find((col) => col.pk > 0)?.name ?? null takes the first
column, in declaration order, whose primary-key rank is positive. -/
def resolvePrimary (cols : List ColumnInfo) : Option String :=
  (cols.find? (fun col => col.pk > 0)).map ColumnInfo.name

/-- Table Metadata as computed by getTableMetadata. -/
structure TableMetadata where
  columns : List ColumnInfo
  primaryKey : Option String
  usesRowId : Bool
  rowCount : Nat
deriving DecidableEq, Repr

/-- getTableMetadata(table): none when the table is unknown (PRAGMA
table_info returns no rows); otherwise the columns, the resolved identity
column, the implicit-identifier flag and the row count. -/
def getTableMetadata (db : Db) (table : String) : Option TableMetadata :=
  match dbLookup db table with
  | none => none
  | some td =>
    if td.schema.isEmpty then none
    else
      let primary := resolvePrimary td.schema
      some { columns := td.schema, primaryKey := primary,
             usesRowId := primary.isNone, rowCount := td.rows.length }

/-- Reads the value of one column of a row (null when absent, as SQLite
reports NULL for a never-written field). -/
def rowGet (r : Row) (name : String) : JSValue :=
  match r.find? (fun p => p.1 == name) with
  | some p => p.2
  | none => JSValue.null

/-- Overwrites one column of a row. -/
def rowSet (r : Row) (name : String) (v : JSValue) : Row :=
  r.map (fun p => if p.1 == name then (p.1, v) else p)

/-- Applies the SET clause of an UPDATE statement to one row. -/
def applySetters (r : Row) (setters : List (String × JSValue)) : Row :=
  setters.foldl (fun acc p => rowSet acc p.1 p.2) r

/-- The SQLite cross-class total order restricted to the modelled storage
classes: NULL sorts before every number, numbers before every text. -/
def jsvLe : JSValue → JSValue → Bool
  | JSValue.null, _ => true
  | JSValue.num _, JSValue.null => false
  | JSValue.num a, JSValue.num b => a ≤ b
  | JSValue.num _, JSValue.str _ => true
  | JSValue.str _, JSValue.null => false
  | JSValue.str _, JSValue.num _ => false
  | JSValue.str a, JSValue.str b => a ≤ b

/-- Row comparison by the value of the ordering column. -/
def rowKeyLe (key : String) (a b : Row) : Bool :=
  jsvLe (rowGet a key) (rowGet b key)

/-- The ORDER BY clause of the page read: rows sorted ascending by the
identity column (or the implicit row identifier). -/
def sortRows (rows : List Row) (key : String) : List Row :=
  rows.mergeSort (rowKeyLe key)

/-- One page window of the ordered table: LIMIT and OFFSET applied to the
ordered rows. -/
def pageRows (rows : List Row) (key : String) (limit offset : Nat) : List Row :=
  ((sortRows rows key).drop offset).take limit

/-- The meta object of a successful page response. -/
structure PageMeta where
  columns : List ColumnInfo
  primaryKey : String
  usesRowId : Bool
  rowCount : Nat
  limit : Int
  offset : Int
deriving DecidableEq, Repr

/-- Outcome of the GET route: a client error status or a page. -/
inductive GetResult where
  | clientError (status : Nat)
  | page (meta : PageMeta) (rows : List Row)
deriving DecidableEq, Repr

/-- The rows currently stored for a table (empty when the table is
unknown; the handlers only reach this after the metadata check). -/
def tableRowsOf (db : Db) (table : String) : List Row :=
  ((dbLookup db table).map TableDef.rows).getD []

/-- The GET route handler of app/api/tables/[table]/route.ts: allow-list
check, limit and offset resolution, metadata lookup, then the ordered
window of rows together with the meta object echoing the clamped limit
and offset. -/
def handleGET (db : Db) (tableParam : String) (limitParam offsetParam : Option String) :
    GetResult :=
  match sanitizeTableName tableParam with
  | none => GetResult.clientError 400
  | some table =>
    let limit := effectiveLimit limitParam
    let offset := effectiveOffset offsetParam
    match getTableMetadata db table with
    | none => GetResult.clientError 404
    | some md =>
      let key := md.primaryKey.getD "__rowid__"
      GetResult.page
        { columns := md.columns, primaryKey := key, usesRowId := md.usesRowId,
          rowCount := md.rowCount, limit := limit, offset := offset }
        (pageRows (tableRowsOf db table) key limit.toNat offset.toNat)

/-- One element of the updates array of the POST body: the row identifier
and the supplied column-to-value record (JavaScript object entries keep
insertion order). -/
structure BatchUpdate where
  key : JSValue
  data : List (String × JSValue)
deriving DecidableEq, Repr

/-- Outcome of the POST route: the updated count, a client error status,
or the server error produced by a failed batch. -/
inductive PostResult where
  | ok (updated : Nat)
  | clientError (status : Nat)
  | serverError
deriving DecidableEq, Repr

/-- Lookup in the columnMap built from the metadata columns (column names
are unique within a table, so first match and the JavaScript Map agree). -/
def columnFor (cols : List ColumnInfo) (name : String) : Option ColumnInfo :=
  cols.find? (fun c => c.name == name)

/-- The filter of step 3a of the batch engine:
entries = Object.entries(update.data).filter(([name]) => name !== primaryKey && columnMap.has(name)). -/
def editEntries (cols : List ColumnInfo) (primaryKey : String) (data : List (String × JSValue)) :
    List (String × JSValue) :=
  data.filter (fun p => p.1 != primaryKey && (columnFor cols p.1).isSome)

/-- The normalized SET values of one statement, pairing each kept column
with normalizeValue(value, columnMap.get(name)?.type). -/
def normalizedSetters (cols : List ColumnInfo) (primaryKey : String)
    (data : List (String × JSValue)) : List (String × JSValue) :=
  (editEntries cols primaryKey data).map
    (fun p => (p.1, normalizeValue p.2 ((columnFor cols p.1).map ColumnInfo.type)))

/-- The normalized row identifier of one statement:
normalizeValue(update.key, primaryKey === "__rowid__" ? "INTEGER" : columnMap.get(primaryKey)?.type). -/
def normalizedIdentifier (cols : List ColumnInfo) (primaryKey : String) (key : JSValue) :
    JSValue :=
  normalizeValue key
    (if primaryKey == "__rowid__" then some "INTEGER"
     else (columnFor cols primaryKey).map ColumnInfo.type)

/-- SQLite equality inside a WHERE clause: a comparison against NULL is
never true; otherwise values of the same storage class compare by value.
Affinity coercion across storage classes lies outside the modelled
fragment. -/
def sqlEq (a b : JSValue) : Bool :=
  match a, b with
  | JSValue.null, _ => false
  | _, JSValue.null => false
  | x, y => x == y

/-- Tests whether the SET clause writes the null value into a column
declared NOT NULL; the representative storage-level constraint error. -/
def settersViolateNotNull (cols : List ColumnInfo) (setters : List (String × JSValue)) : Bool :=
  setters.any (fun p =>
    p.2 == JSValue.null &&
      (match columnFor cols p.1 with
       | some c => c.notnull != 0
       | none => false))

/-- Executes one parameterized UPDATE statement against the stored rows:
every row whose identity value equals the bound identifier receives the
SET clause; the reported change count is the number of matched rows (a
zero-row match is a successful no-op); writing NULL into a NOT NULL
column while at least one row matches raises the storage error. -/
def runUpdate (cols : List ColumnInfo) (rows : List Row) (setters : List (String × JSValue))
    (keyField : String) (idVal : JSValue) : Except Unit (List Row × Nat) :=
  let matched := rows.countP (fun r => sqlEq (rowGet r keyField) idVal)
  if matched > 0 && settersViolateNotNull cols setters then Except.error ()
  else
    Except.ok
      (rows.map (fun r => if sqlEq (rowGet r keyField) idVal then applySetters r setters else r),
       matched)

/-- One iteration of the loop in step 3 of the batch engine: filter the
supplied pairs, skip the edit when nothing remains, otherwise normalize
values and identifier and execute the statement, accumulating the change
count. -/
def runStatement (cols : List ColumnInfo) (primaryKey : String) (st : List Row × Nat)
    (u : BatchUpdate) : Except Unit (List Row × Nat) :=
  let entries := editEntries cols primaryKey u.data
  if entries.isEmpty then Except.ok st
  else
    let setters := normalizedSetters cols primaryKey u.data
    let idVal := normalizedIdentifier cols primaryKey u.key
    match runUpdate cols st.1 setters primaryKey idVal with
    | Except.error e => Except.error e
    | Except.ok (rows, n) => Except.ok (rows, st.2 + n)

/-- The transaction body db.transaction((updates) => ...): the statements
run in caller order over the shared row state; the first storage error
aborts the whole fold. -/
def runTransaction (cols : List ColumnInfo) (primaryKey : String) (rows : List Row)
    (updates : List BatchUpdate) : Except Unit (List Row × Nat) :=
  updates.foldlM (fun st u => runStatement cols primaryKey st u) (rows, 0)

/-- Replaces the stored rows of one table. -/
def dbSetRows (db : Db) (table : String) (rows : List Row) : Db :=
  { tables := db.tables.map (fun p => if p.1 == table then (p.1, { p.2 with rows := rows }) else p) }

/-- The POST route handler: allow-list check, metadata lookup, body
validation (none models a body the schema rejects), trivial success on an
empty batch, then the transaction; commit updates the stored rows, and a
storage error rolls the table back to its pre-call rows and answers with
the server error. -/
def handlePOST (db : Db) (tableParam : String) (body : Option (List BatchUpdate)) :
    PostResult × Db :=
  match sanitizeTableName tableParam with
  | none => (PostResult.clientError 400, db)
  | some table =>
    match getTableMetadata db table with
    | none => (PostResult.clientError 404, db)
    | some md =>
      match body with
      | none => (PostResult.clientError 400, db)
      | some updates =>
        let primaryKey := md.primaryKey.getD "__rowid__"
        if updates.isEmpty then (PostResult.ok 0, db)
        else
          match runTransaction md.columns primaryKey (tableRowsOf db table) updates with
          | Except.ok (rows, n) => (PostResult.ok n, dbSetRows db table rows)
          | Except.error _ => (PostResult.serverError, db)

/-- Status banner states of the client page. -/
inductive StatusType where
  | idle
  | loading
  | success
  | error
deriving DecidableEq, Repr

/-- The parsed body of a successful page response held by the client. -/
structure TableResponse where
  meta : PageMeta
  rows : List Row
deriving DecidableEq, Repr

/-- The state of the editable grid component HomePage: the table list, the
selection, the loaded page, the loading flag, the status banner, the map
of Pending Edits keyed by row identifier, and the pagination state. -/
structure GridState where
  tables : List String
  selectedTable : String
  tableData : Option TableResponse
  isLoading : Bool
  status : StatusType
  editedRows : List (JSValue × Row)
  limit : Int
  offset : Int
  reloadKey : Nat
deriving DecidableEq, Repr

/-- Events of the grid state machine: the user interactions and the
completions of the in-flight page load and save requests. -/
inductive GridEvent where
  | selectTable (t : String)
  | changeLimit (raw : String)
  | goToPage (page : Int)
  | reloadClick
  | loadStart
  | loadSuccess (data : TableResponse)
  | loadFailure
  | editCell (key : JSValue) (row : Row)
  | saveStart
  | saveAccepted
  | saveRejected
deriving DecidableEq, Repr

/-- Last-write-wins insertion into the Pending Edit map (the JavaScript
Map.set on the identifier key). -/
def upsertEdit (k : JSValue) (r : Row) (m : List (JSValue × Row)) : List (JSValue × Row) :=
  if m.any (fun p => p.1 == k) then m.map (fun p => if p.1 == k then (k, r) else p)
  else m ++ [(k, r)]

/-- Number of pages computed by the component: Math.max(1, Math.ceil(rowCount / limit)). -/
def totalPagesOf (meta : PageMeta) : Int :=
  max 1 ((Int.ofNat meta.rowCount + meta.limit - 1) / meta.limit)

/-- The transition function of the editable grid, with each branch taken
from the corresponding handler of HomePage: selection and page-size
changes reset the offset, a load in flight sets the loading status, a
successful load installs the page and discards every Pending Edit, a
failed load drops the page, a cell edit upserts into the Pending Edit
map, an accepted save clears the edits and bumps the reload key, and a
rejected save only surfaces the error status. -/
def step (s : GridState) (e : GridEvent) : GridState :=
  match e with
  | GridEvent.selectTable t => { s with selectedTable := t, offset := 0 }
  | GridEvent.changeLimit raw =>
      { s with limit := max 1 (min 500 (jsOr (jsNumber raw) 50)), offset := 0 }
  | GridEvent.goToPage page =>
      match s.tableData with
      | none => s
      | some td =>
          let safePage := min (max page 1) (totalPagesOf td.meta)
          { s with offset := (safePage - 1) * td.meta.limit }
  | GridEvent.reloadClick =>
      if s.selectedTable == "" then s else { s with reloadKey := s.reloadKey + 1 }
  | GridEvent.loadStart =>
      if s.selectedTable == "" then { s with tableData := none }
      else { s with isLoading := true, status := StatusType.loading }
  | GridEvent.loadSuccess data =>
      { s with tableData := some data, editedRows := [], status := StatusType.idle,
               isLoading := false }
  | GridEvent.loadFailure =>
      { s with status := StatusType.error, tableData := none, isLoading := false }
  | GridEvent.editCell k r =>
      { s with editedRows := upsertEdit k r s.editedRows }
  | GridEvent.saveStart =>
      if s.editedRows.isEmpty then s else { s with status := StatusType.loading }
  | GridEvent.saveAccepted =>
      { s with status := StatusType.success, editedRows := [], reloadKey := s.reloadKey + 1 }
  | GridEvent.saveRejected =>
      { s with status := StatusType.error }

/-- The identity field used by the engine: the resolved identity column
or, for tables without a declared primary key, the reserved sentinel
(metadata.primaryKey ?? "__rowid__"). -/
def resolvedKeyOf (td : TableDef) : String :=
  (resolvePrimary td.schema).getD "__rowid__"

/-- Sample schema for the concrete witnesses: a declared INTEGER primary
key and a NOT NULL text column. -/
def colId : ColumnInfo := ⟨0, "id", "INTEGER", 0, JSValue.null, 1⟩

/-- Sample NOT NULL text column. -/
def colName : ColumnInfo := ⟨1, "name", "TEXT", 1, JSValue.null, 0⟩

/-- Sample row with identifier 1. -/
def rowAlpha : Row := [("id", JSValue.num 1), ("name", JSValue.str "alpha")]

/-- Sample row with identifier 2. -/
def rowBeta : Row := [("id", JSValue.num 2), ("name", JSValue.str "beta")]

/-- Sample table definition for the witnesses. -/
def tdBrands : TableDef := ⟨[colId, colName], [rowAlpha, rowBeta]⟩

/-- Sample database for the witnesses. -/
def dbSample : Db := ⟨[("brands", tdBrands)]⟩

/-- Table Metadata of the sample table. -/
def mdBrands : TableMetadata := ⟨[colId, colName], some "id", false, 2⟩

/-- Composite-key schema whose declaration order differs from the key
order: column a carries primary-key rank 2, column b carries rank 1. -/
def colA : ColumnInfo := ⟨0, "a", "INTEGER", 0, JSValue.null, 2⟩

/-- The rank-1 column of the composite key, declared second. -/
def colB : ColumnInfo := ⟨1, "b", "INTEGER", 0, JSValue.null, 1⟩

/-- Database holding the composite-key table. -/
def dbComposite : Db := ⟨[("t", ⟨[colA, colB], []⟩)]⟩

/-! Helper lemmas shared by the claim theorems. -/

theorem jsvLe_trans (a b c : JSValue) (h1 : jsvLe a b = true) (h2 : jsvLe b c = true) :
    jsvLe a c = true := by
  cases a <;> cases b <;> cases c <;> simp_all [jsvLe]
  · exact le_trans h1 h2
  · omega

theorem jsvLe_total (a b : JSValue) : (jsvLe a b || jsvLe b a) = true := by
  cases a <;> cases b <;> simp [jsvLe]
  · exact le_total ..
  · omega

theorem rowKeyLe_trans (key : String) (a b c : Row) (h1 : rowKeyLe key a b = true)
    (h2 : rowKeyLe key b c = true) : rowKeyLe key a c = true :=
  jsvLe_trans _ _ _ h1 h2

theorem rowKeyLe_total (key : String) (a b : Row) :
    (rowKeyLe key a b || rowKeyLe key b a) = true :=
  jsvLe_total _ _

theorem map_eq_self_of {α : Type} (l : List α) (f : α → α) (h : ∀ x ∈ l, f x = x) :
    l.map f = l := by
  induction l with
  | nil => rfl
  | cons a t ih =>
      simp only [List.map_cons, h a (List.mem_cons_self a t)]
      rw [ih (fun x hx => h x (List.mem_cons_of_mem a hx))]

theorem rowGet_rowSet_of_ne (r : Row) (name key : String) (v : JSValue) (h : name ≠ key) :
    rowGet (rowSet r name v) key = rowGet r key := by
  unfold rowGet rowSet
  rw [List.find?_map]
  have hcomp : ((fun p : String × JSValue => p.1 == key) ∘
      fun p : String × JSValue => if p.1 == name then (p.1, v) else p) =
      fun p : String × JSValue => p.1 == key := by
    funext p
    by_cases h1 : p.1 = name <;> simp [h1]
  rw [hcomp]
  cases hf : r.find? (fun p => p.1 == key) with
  | none => rfl
  | some q =>
      have hq1 : q.1 = key := by simpa using List.find?_some hf
      have hqn : ¬q.1 = name := by
        rw [hq1]
        exact fun hc => h hc.symm
      simp [hqn]

theorem rowGet_applySetters_of (setters : List (String × JSValue)) (r : Row) (key : String)
    (h : ∀ p ∈ setters, p.1 ≠ key) : rowGet (applySetters r setters) key = rowGet r key := by
  induction setters generalizing r with
  | nil => rfl
  | cons p t ih =>
      have hstep : applySetters r (p :: t) = applySetters (rowSet r p.1 p.2) t := rfl
      rw [hstep, ih (rowSet r p.1 p.2) (fun q hq => h q (List.mem_cons_of_mem p hq))]
      exact rowGet_rowSet_of_ne r p.1 key p.2 (h p (List.mem_cons_self p t))

theorem normalizedSetters_ne_pk (cols : List ColumnInfo) (pk : String)
    (data : List (String × JSValue)) :
    ∀ p ∈ normalizedSetters cols pk data, p.1 ≠ pk := by
  intro p hp
  simp only [normalizedSetters, List.mem_map] at hp
  obtain ⟨q, hq, hpq⟩ := hp
  simp only [editEntries, List.mem_filter, bne_iff_ne, Bool.and_eq_true, ne_eq,
    decide_eq_true_eq] at hq
  have : p.1 = q.1 := by rw [← hpq]
  rw [this]
  exact hq.2.1

theorem find?_first_of_prefix {α : Type} (p : α → Bool) :
    ∀ (l₁ : List α) (c : α) (l₂ : List α), (∀ x ∈ l₁, p x = false) → p c = true →
      (l₁ ++ c :: l₂).find? p = some c
  | [], c, l₂, _, hc => by simp [List.find?_cons_of_pos _ hc]
  | a :: t, c, l₂, h, hc => by
      rw [List.cons_append, List.find?_cons_of_neg]
      · exact find?_first_of_prefix p t c l₂ (fun x hx => h x (List.mem_cons_of_mem a hx)) hc
      · simp [h a (List.mem_cons_self a t)]

theorem runUpdate_zero_match (cols : List ColumnInfo) (rows : List Row)
    (setters : List (String × JSValue)) (keyField : String) (idVal : JSValue)
    (h : rows.countP (fun r => sqlEq (rowGet r keyField) idVal) = 0) :
    runUpdate cols rows setters keyField idVal = Except.ok (rows, 0) := by
  have hall := List.countP_eq_zero.mp h
  simp only [runUpdate, h]
  simp only [gt_iff_lt, lt_self_iff_false, decide_False, Bool.false_and, Bool.false_eq_true,
    if_false]
  rw [map_eq_self_of rows _ (fun r hr => if_neg (hall r hr))]

theorem runStatement_ok_key (cols : List ColumnInfo) (pk : String) (st st' : List Row × Nat)
    (u : BatchUpdate) (h : runStatement cols pk st u = Except.ok st') :
    st'.1.map (fun r => rowGet r pk) = st.1.map (fun r => rowGet r pk) := by
  unfold runStatement at h
  by_cases he : (editEntries cols pk u.data).isEmpty
  · rw [if_pos he] at h
    cases h
    rfl
  · rw [if_neg he] at h
    unfold runUpdate at h
    by_cases hv :
        (decide (st.1.countP
            (fun r => sqlEq (rowGet r pk) (normalizedIdentifier cols pk u.key)) > 0) &&
          settersViolateNotNull cols (normalizedSetters cols pk u.data)) = true
    · simp only [hv, if_true] at h
      cases h
    · simp only [Bool.not_eq_true] at hv
      simp only [hv, Bool.false_eq_true, if_false] at h
      cases h
      simp only [List.map_map]
      apply List.map_congr_left
      intro r _
      by_cases hm : sqlEq (rowGet r pk) (normalizedIdentifier cols pk u.key)
      · simp only [Function.comp_apply, if_pos hm]
        exact rowGet_applySetters_of _ r pk (normalizedSetters_ne_pk cols pk u.data)
      · simp only [Function.comp_apply, if_neg hm]

theorem foldlM_statements_key (cols : List ColumnInfo) (pk : String)
    (updates : List BatchUpdate) :
    ∀ (st st' : List Row × Nat),
      updates.foldlM (fun st u => runStatement cols pk st u) st = Except.ok st' →
      st'.1.map (fun r => rowGet r pk) = st.1.map (fun r => rowGet r pk) := by
  induction updates with
  | nil =>
      intro st st' h
      cases h
      rfl
  | cons u us ih =>
      intro st st' h
      rw [List.foldlM_cons] at h
      cases hru : runStatement cols pk st u with
      | error e =>
          rw [hru] at h
          rw [show (Except.error e >>= fun s =>
              us.foldlM (fun st u => runStatement cols pk st u) s) =
              (Except.error e : Except Unit (List Row × Nat)) from rfl] at h
          cases h
      | ok mid =>
          rw [hru] at h
          rw [show (Except.ok mid >>= fun s =>
              us.foldlM (fun st u => runStatement cols pk st u) s) =
              us.foldlM (fun st u => runStatement cols pk st u) mid from rfl] at h
          rw [ih mid st' h, runStatement_ok_key cols pk st mid u hru]

theorem runTransaction_ok_key (cols : List ColumnInfo) (pk : String) (rows : List Row)
    (updates : List BatchUpdate) (rows' : List Row) (n : Nat)
    (h : runTransaction cols pk rows updates = Except.ok (rows', n)) :
    rows'.map (fun r => rowGet r pk) = rows.map (fun r => rowGet r pk) :=
  foldlM_statements_key cols pk updates (rows, 0) (rows', n) h

/-- C8: the normalization function satisfies the spec test vectors: with
affinity INTEGER the text " 42 " becomes the number 42; with affinity
BOOLEAN the text yes becomes 1; with the empty affinity the empty string
passes through unchanged; any text whose trimmed form case-insensitively
equals NULL becomes the null value for every affinity; and every
non-string input value passes through unchanged. -/
theorem claim_C8_normalization_vectors :
    normalizeValue (JSValue.str " 42 ") (some "INTEGER") = JSValue.num 42
    ∧ normalizeValue (JSValue.str "yes") (some "BOOLEAN") = JSValue.num 1
    ∧ normalizeValue (JSValue.str "") (some "") = JSValue.str ""
    ∧ (∀ s ty, (trimChars s.data).map upperChar = "NULL".data →
        normalizeValue (JSValue.str s) ty = JSValue.null)
    ∧ (∀ v ty, (∀ s, v ≠ JSValue.str s) → normalizeValue v ty = v) := by
  refine ⟨by decide, by decide, by decide, ?_, ?_⟩
  · intro s ty h
    simp [normalizeValue, h]
  · intro v ty h
    cases v with
    | str s => exact absurd rfl (h s)
    | num n => rfl
    | null => rfl

/-- Witness for C8: the text " null " under affinity TEXT trims and
upper-cases to NULL and normalizes to the null value. -/
theorem claim_C8_witness :
    (trimChars " null ".data).map upperChar = "NULL".data
    ∧ normalizeValue (JSValue.str " null ") (some "TEXT") = JSValue.null :=
  ⟨by decide, claim_C8_normalization_vectors.2.2.2.1 " null " (some "TEXT") (by decide)⟩

/-- C10: an absent, non-numeric or zero limit parameter yields the
default 50 (not the clamp bound 1), and an absent or non-numeric offset
parameter yields 0. -/
theorem claim_C10_parameter_defaults :
    effectiveLimit none = 50
    ∧ effectiveOffset none = 0
    ∧ (∀ s, jsNumber s = none → effectiveLimit (some s) = 50 ∧ effectiveOffset (some s) = 0)
    ∧ (∀ s, jsNumber s = some 0 → effectiveLimit (some s) = 50) := by
  refine ⟨by decide, by decide, ?_, ?_⟩
  · intro s h
    constructor
    · simp only [effectiveLimit, queryNumber, jsOr, h]
      decide
    · simp only [effectiveOffset, queryNumber, jsOr, h]
      decide
  · intro s h
    simp only [effectiveLimit, queryNumber, jsOr, h, if_pos rfl]
    decide

/-- Witness for C10: the non-numeric limit parameter abc falls back to
the default 50. -/
theorem claim_C10_witness :
    jsNumber "abc" = none ∧ effectiveLimit (some "abc") = 50 :=
  ⟨by decide, (claim_C10_parameter_defaults.2.2.1 "abc" (by decide)).1⟩

/-- C9: in the grid state machine every successful page load (whatever
sequence of selection, page-size, navigation, reload or save events
preceded it) replaces the Pending Edit set with the empty set, while a
rejected save keeps the Pending Edit set, the loaded page and the
loading flag unchanged and only surfaces the error status. -/
theorem claim_C9_grid_pending_edits :
    (∀ s data, (step s (GridEvent.loadSuccess data)).editedRows = [])
    ∧ (∀ (s : GridState) (events : List GridEvent) (data : TableResponse),
        (step (events.foldl step s) (GridEvent.loadSuccess data)).editedRows = [])
    ∧ (∀ s, (step s GridEvent.saveRejected).editedRows = s.editedRows
        ∧ (step s GridEvent.saveRejected).tableData = s.tableData
        ∧ (step s GridEvent.saveRejected).isLoading = s.isLoading
        ∧ (step s GridEvent.saveRejected).status = StatusType.error) :=
  ⟨fun _ _ => rfl, fun _ _ _ => rfl, fun _ => ⟨rfl, rfl, rfl, rfl⟩⟩

/-- Counterexample to C3 as stated: with affinity INTEGER (declared,
containing none of char, text, clob) the empty string normalizes to the
number 0, not to the null value, because Number of the empty string is 0
in JavaScript and the numeric-parse rule fires before the empty-string
rule. -/
theorem claim_C3_counterexample :
    normalizeValue (JSValue.str "") (some "INTEGER") = JSValue.num 0
    ∧ normalizeValue (JSValue.str "") (some "INTEGER") ≠ JSValue.null :=
  ⟨by decide, by decide⟩

/-- C3 (amended): an empty trimmed text value with a declared non-empty
affinity containing none of char, text, clob normalizes to null exactly
when the affinity also contains none of the numeric markers int, real,
floa, doub; when it contains a numeric marker, the value normalizes to
the number 0 instead (the JavaScript numeric parse of the empty string
succeeds with 0). -/
theorem claim_C3_empty_value_normalization (ty v : String)
    (hv : trimChars v.data = [])
    (hne : ty ≠ "")
    (hchar : listIncludes (ty.data.map lowerChar) "char".data = false)
    (htext : listIncludes (ty.data.map lowerChar) "text".data = false)
    (hclob : listIncludes (ty.data.map lowerChar) "clob".data = false) :
    ((listIncludes (ty.data.map lowerChar) "int".data = false
      ∧ listIncludes (ty.data.map lowerChar) "real".data = false
      ∧ listIncludes (ty.data.map lowerChar) "floa".data = false
      ∧ listIncludes (ty.data.map lowerChar) "doub".data = false) →
        normalizeValue (JSValue.str v) (some ty) = JSValue.null)
    ∧ ((listIncludes (ty.data.map lowerChar) "int".data = true
        ∨ listIncludes (ty.data.map lowerChar) "real".data = true
        ∨ listIncludes (ty.data.map lowerChar) "floa".data = true
        ∨ listIncludes (ty.data.map lowerChar) "doub".data = true) →
        normalizeValue (JSValue.str v) (some ty) = JSValue.num 0) := by
  have hlower : (ty.data.map lowerChar).isEmpty = false := by
    have hd : ty.data ≠ [] := fun hd => hne (by cases ty; simp_all)
    cases hm : ty.data with
    | nil => exact absurd hm hd
    | cons a l => simp
  constructor
  · intro ⟨hint, hreal, hfloa, hdoub⟩
    simp only [normalizeValue, hv, Option.getD_some, List.map_nil, hint, hreal, hfloa, hdoub,
      Bool.false_eq_true, if_false, Bool.false_or, hchar, htext, hclob, hlower,
      List.isEmpty_nil, Bool.not_false, Bool.and_true, Bool.true_and, Bool.and_self]
    simp [jsNumberChars, trimChars]
  · intro hnum
    rcases hnum with hint | hreal | hfloa | hdoub
    · simp only [normalizeValue, hv, Option.getD_some, List.map_nil, hint, if_true]
      simp [jsNumberChars, trimChars]
    · by_cases hint : listIncludes (ty.data.map lowerChar) "int".data
      · simp only [normalizeValue, hv, Option.getD_some, List.map_nil, hint, if_true]
        simp [jsNumberChars, trimChars]
      · simp only [Bool.not_eq_true] at hint
        simp only [normalizeValue, hv, Option.getD_some, List.map_nil, hint, hreal,
          Bool.false_eq_true, if_false, Bool.true_or, if_true]
        simp [jsNumberChars, trimChars]
    · by_cases hint : listIncludes (ty.data.map lowerChar) "int".data
      · simp only [normalizeValue, hv, Option.getD_some, List.map_nil, hint, if_true]
        simp [jsNumberChars, trimChars]
      · simp only [Bool.not_eq_true] at hint
        simp only [normalizeValue, hv, Option.getD_some, List.map_nil, hint, hfloa,
          Bool.false_eq_true, if_false, Bool.true_or, Bool.or_true, if_true]
        simp [jsNumberChars, trimChars]
    · by_cases hint : listIncludes (ty.data.map lowerChar) "int".data
      · simp only [normalizeValue, hv, Option.getD_some, List.map_nil, hint, if_true]
        simp [jsNumberChars, trimChars]
      · simp only [Bool.not_eq_true] at hint
        simp only [normalizeValue, hv, Option.getD_some, List.map_nil, hint, hdoub,
          Bool.false_eq_true, if_false, Bool.or_true, if_true]
        simp [jsNumberChars, trimChars]

/-- Witness for C3: a whitespace value in a BOOLEAN column (declared,
non-numeric, non-text affinity) normalizes to null. -/
theorem claim_C3_witness :
    trimChars "  ".data = []
    ∧ normalizeValue (JSValue.str "  ") (some "BOOLEAN") = JSValue.null :=
  ⟨by decide, (claim_C3_empty_value_normalization "BOOLEAN" "  " (by decide) (by decide)
      (by decide) (by decide) (by decide)).1 ⟨by decide, by decide, by decide, by decide⟩⟩

/-- Counterexample to C2 as stated: the empty table name consists only of
characters of the allow-list class (vacuously) and is still rejected,
because the allow-list pattern requires at least one character. -/
theorem claim_C2_counterexample :
    sanitizeTableName "" = none ∧ "".data.all isTableNameChar = true :=
  ⟨by decide, by decide⟩

/-- C2 (amended): any table name containing a character outside the class
is rejected by both route handlers with a client error before the
database is consulted (the response does not depend on the database
contents), and every non-empty name built only from the class passes the
check unchanged. -/
theorem claim_C2_identifier_allowlist :
    (∀ t : String, (∃ c ∈ t.data, isTableNameChar c = false) →
        sanitizeTableName t = none
        ∧ (∀ db lp op, handleGET db t lp op = GetResult.clientError 400)
        ∧ (∀ db body, handlePOST db t body = (PostResult.clientError 400, db)))
    ∧ (∀ t : String, t.data ≠ [] → t.data.all isTableNameChar = true →
        sanitizeTableName t = some t) := by
  constructor
  · intro t ht
    have hall : t.data.all isTableNameChar = false := by
      obtain ⟨c, hc, hcf⟩ := ht
      rcases hb : t.data.all isTableNameChar with _ | _
      · rfl
      · have := List.all_eq_true.mp hb c hc
        rw [hcf] at this
        cases this
    have hs : sanitizeTableName t = none := by
      simp [sanitizeTableName, hall]
    refine ⟨hs, fun db lp op => ?_, fun db body => ?_⟩
    · simp [handleGET, hs]
    · simp [handlePOST, hs]
  · intro t h1 h2
    have hne : t.data.isEmpty = false := by
      cases hm : t.data with
      | nil => exact absurd hm h1
      | cons a l => simp
    simp [sanitizeTableName, hne, h2]

/-- Witness for C2: the name brands passes the allow-list check. -/
theorem claim_C2_witness :
    ("brands".data ≠ [] ∧ "brands".data.all isTableNameChar = true)
    ∧ sanitizeTableName "brands" = some "brands" :=
  ⟨⟨by decide, by decide⟩, claim_C2_identifier_allowlist.2 "brands" (by decide) (by decide)⟩

/-- Counterexample to C5 as stated: in a composite-key table declared
with key order (b, a) the column with primary-key rank 1 is b, yet the
resolved identity column is a, the first declared column with any
positive rank. -/
theorem claim_C5_counterexample :
    (getTableMetadata dbComposite "t").map TableMetadata.primaryKey = some (some "a")
    ∧ colA.pk ≠ 1 ∧ colB.pk = 1 ∧ ("a" : String) ≠ "b" :=
  ⟨by decide, by decide, by decide, by decide⟩

/-- C5 (amended): Describe table resolves the identity column as the
first column in declaration order whose primary-key rank is positive
(for a composite key declared in an order different from the column
order this may be a column of rank greater than 1); when no column is
part of a primary key the identity is the implicit-row-identifier
sentinel and the uses-row-id flag is set. -/
theorem claim_C5_identity_resolution (db : Db) (t : String) (td : TableDef)
    (md : TableMetadata)
    (htd : dbLookup db t = some td)
    (hmd : getTableMetadata db t = some md) :
    ((∀ c ∈ td.schema, c.pk = 0) →
        md.primaryKey = none ∧ md.usesRowId = true
          ∧ md.primaryKey.getD "__rowid__" = "__rowid__")
    ∧ (∀ l₁ c l₂, td.schema = l₁ ++ c :: l₂ → (∀ x ∈ l₁, x.pk = 0) → 0 < c.pk →
        md.primaryKey = some c.name ∧ md.usesRowId = false) := by
  have hmd' : md = ⟨td.schema, resolvePrimary td.schema,
      (resolvePrimary td.schema).isNone, td.rows.length⟩ := by
    unfold getTableMetadata at hmd
    rw [htd] at hmd
    by_cases he : td.schema.isEmpty
    · simp only [he, if_true] at hmd
      cases hmd
    · simp only [he, Bool.false_eq_true, if_false] at hmd
      cases hmd
      rfl
  constructor
  · intro hall
    have hfind : td.schema.find? (fun col => col.pk > 0) = none :=
      List.find?_eq_none.mpr (fun c hc => by simp [hall c hc])
    rw [hmd']
    simp [resolvePrimary, hfind]
  · intro l₁ c l₂ heq hpre hc
    have hfind : td.schema.find? (fun col => col.pk > 0) = some c := by
      rw [heq]
      exact find?_first_of_prefix _ l₁ c l₂ (fun x hx => by simp [hpre x hx])
        (by simpa using hc)
    rw [hmd']
    simp [resolvePrimary, hfind]

/-- Witness for C5: in the sample table the first declared column id
carries rank 1 and resolves as the identity column. -/
theorem claim_C5_witness :
    (dbLookup dbSample "brands" = some tdBrands
      ∧ getTableMetadata dbSample "brands" = some mdBrands
      ∧ tdBrands.schema = [] ++ colId :: [colName] ∧ 0 < colId.pk)
    ∧ mdBrands.primaryKey = some colId.name :=
  ⟨⟨by decide, by decide, by decide, by decide⟩,
    ((claim_C5_identity_resolution dbSample "brands" tdBrands mdBrands (by decide)
        (by decide)).2 [] colId [colName] (by decide)
      (fun x hx => absurd hx (List.not_mem_nil x)) (by decide)).1⟩

/-- Counterexample to C6 as stated: a caller-supplied limit of 0 is not
clamped to the lower bound 1 but replaced by the default 50, because 0 is
falsy in the expression Number(limit) || 50. -/
theorem claim_C6_counterexample :
    effectiveLimit (some "0") = 50 ∧ max 1 (min 500 (0 : Int)) = 1 ∧ (50 : Int) ≠ 1 :=
  ⟨by decide, by decide, by decide⟩

/-- C6 (amended): a caller-supplied limit that parses to a nonzero number
is silently clamped to the interval from 1 to 500, a zero (or absent or
unparsable) limit falls back to the default 50, every parsed offset is
clamped to be nonnegative, and the meta object of a successful page read
echoes exactly the effective limit and offset. -/
theorem claim_C6_clamping_echo :
    (∀ p n, queryNumber p = some n → n ≠ 0 → effectiveLimit p = max 1 (min 500 n))
    ∧ (∀ p, queryNumber p = some 0 → effectiveLimit p = 50)
    ∧ (∀ p m, queryNumber p = some m → effectiveOffset p = max 0 m)
    ∧ (∀ db t lp op md rows, handleGET db t lp op = GetResult.page md rows →
        md.limit = effectiveLimit lp ∧ md.offset = effectiveOffset op) := by
  refine ⟨?_, ?_, ?_, ?_⟩
  · intro p n h hn
    simp [effectiveLimit, jsOr, h, hn]
  · intro p h
    simp only [effectiveLimit, jsOr, h, if_pos rfl]
    decide
  · intro p m h
    by_cases hm : m = 0
    · subst hm
      simp only [effectiveOffset, jsOr, h, if_pos rfl]
      decide
    · simp [effectiveOffset, jsOr, h, hm]
  · intro db t lp op md rows h
    unfold handleGET at h
    cases hs : sanitizeTableName t with
    | none =>
        rw [hs] at h
        cases h
    | some tbl =>
        rw [hs] at h
        simp only [] at h
        cases hmd : getTableMetadata db tbl with
        | none =>
            rw [hmd] at h
            cases h
        | some md' =>
            rw [hmd] at h
            cases h
            exact ⟨rfl, rfl⟩

/-- Witness for C6: the limit parameter 7 is taken as supplied (its clamp
to the interval is itself). -/
theorem claim_C6_witness :
    (queryNumber (some "7") = some 7 ∧ (7 : Int) ≠ 0)
    ∧ effectiveLimit (some "7") = max 1 (min 500 7) :=
  ⟨⟨by decide, by decide⟩, claim_C6_clamping_echo.1 (some "7") 7 (by decide) (by decide)⟩

theorem editEntries_cons_irrelevant (cols : List ColumnInfo) (pk : String) (n : String)
    (v : JSValue) (data : List (String × JSValue)) (h : n = pk ∨ columnFor cols n = none) :
    editEntries cols pk ((n, v) :: data) = editEntries cols pk data := by
  unfold editEntries
  rw [List.filter_cons]
  have hfalse : ((n, v).1 != pk && (columnFor cols (n, v).1).isSome) = false := by
    rcases h with h | h
    · simp [h]
    · simp [h]
  rw [hfalse]
  simp

theorem runStatement_skip (cols : List ColumnInfo) (pk : String) (st : List Row × Nat)
    (k : JSValue) (data : List (String × JSValue)) (h : editEntries cols pk data = []) :
    runStatement cols pk st ⟨k, data⟩ = Except.ok st := by
  simp only [runStatement, h, List.isEmpty_nil, if_true]

/-- C4: the batch engine applies exactly the supplied pairs whose column
exists in the metadata and is not the identity column: a pair naming the
identity column or an unknown column is silently dropped (the statement
outcome is unchanged), an edit left with no columns executes no statement
and contributes 0 to the count, and a committed batch never changes the
stored identity-column value of any row; in particular a batch consisting
of one edit whose data only names the identity column commits as a no-op
with count 0. -/
theorem claim_C4_edit_filtering (cols : List ColumnInfo) (pk : String) :
    (∀ st k n v data, (n = pk ∨ columnFor cols n = none) →
        runStatement cols pk st ⟨k, (n, v) :: data⟩ = runStatement cols pk st ⟨k, data⟩)
    ∧ (∀ st k data, editEntries cols pk data = [] →
        runStatement cols pk st ⟨k, data⟩ = Except.ok st)
    ∧ (∀ rows updates rows' cnt,
        runTransaction cols pk rows updates = Except.ok (rows', cnt) →
        rows'.map (fun r => rowGet r pk) = rows.map (fun r => rowGet r pk))
    ∧ (∀ rows k x, runTransaction cols pk rows [⟨k, [(pk, x)]⟩] = Except.ok (rows, 0)) := by
  refine ⟨?_, ?_, ?_, ?_⟩
  · intro st k n v data h
    have hdrop := editEntries_cons_irrelevant cols pk n v data h
    simp only [runStatement, normalizedSetters, normalizedIdentifier, hdrop]
  · intro st k data h
    exact runStatement_skip cols pk st k data h
  · intro rows updates rows' cnt h
    exact runTransaction_ok_key cols pk rows updates rows' cnt h
  · intro rows k x
    have hnil : editEntries cols pk [(pk, x)] = [] := by
      simp [editEntries]
    simp only [runTransaction, List.foldlM_cons, List.foldlM_nil]
    rw [runStatement_skip cols pk (rows, 0) k [(pk, x)] hnil]
    rfl

/-- Witness for C4: an edit naming only the identity column is dropped
whole and executes no statement. -/
theorem claim_C4_witness :
    editEntries [colId, colName] "id" [("id", JSValue.str "x")] = []
    ∧ runStatement [colId, colName] "id" ([rowAlpha], 0)
        ⟨JSValue.num 1, [("id", JSValue.str "x")]⟩ = Except.ok ([rowAlpha], 0) :=
  ⟨by decide, (claim_C4_edit_filtering [colId, colName] "id").2.1 ([rowAlpha], 0)
      (JSValue.num 1) [("id", JSValue.str "x")] (by decide)⟩

/-- C1: for a valid existing table and a non-empty batch, either the
transaction commits, the stored rows become exactly its result and the
response reports its accumulated change count, or the transaction raises
a storage error, the stored rows stay exactly as before the call and the
response is the server error; moreover any statement whose normalized
identifier matches zero rows succeeds without changing the state,
contributing 0 to the count and not aborting the batch. -/
theorem claim_C1_batch_atomicity (db : Db) (t : String) (td : TableDef)
    (updates : List BatchUpdate)
    (hsan : sanitizeTableName t = some t)
    (htd : dbLookup db t = some td)
    (hschema : td.schema.isEmpty = false)
    (hne : updates.isEmpty = false) :
    ((∃ rows cnt, runTransaction td.schema (resolvedKeyOf td) td.rows updates
          = Except.ok (rows, cnt)
        ∧ handlePOST db t (some updates) = (PostResult.ok cnt, dbSetRows db t rows))
      ∨ (runTransaction td.schema (resolvedKeyOf td) td.rows updates = Except.error ()
        ∧ handlePOST db t (some updates) = (PostResult.serverError, db)))
    ∧ (∀ st u,
        st.1.countP (fun r => sqlEq (rowGet r (resolvedKeyOf td))
            (normalizedIdentifier td.schema (resolvedKeyOf td) u.key)) = 0 →
        runStatement td.schema (resolvedKeyOf td) st u = Except.ok st) := by
  constructor
  · have hmd : getTableMetadata db t = some ⟨td.schema, resolvePrimary td.schema,
        (resolvePrimary td.schema).isNone, td.rows.length⟩ := by
      unfold getTableMetadata
      rw [htd]
      simp [hschema]
    have hrows : tableRowsOf db t = td.rows := by
      simp [tableRowsOf, htd]
    simp only [handlePOST, hsan, hmd, hne, hrows, resolvedKeyOf, Bool.false_eq_true, if_false]
    cases hrt : runTransaction td.schema ((resolvePrimary td.schema).getD "__rowid__")
        td.rows updates with
    | ok pair =>
        obtain ⟨rows1, cnt1⟩ := pair
        left
        exact ⟨rows1, cnt1, rfl, rfl⟩
    | error e =>
        cases e
        right
        exact ⟨rfl, rfl⟩
  · intro st u hcount
    simp only [runStatement]
    by_cases he : (editEntries td.schema (resolvedKeyOf td) u.data).isEmpty
    · rw [if_pos he]
    · rw [if_neg he]
      rw [runUpdate_zero_match td.schema st.1
        (normalizedSetters td.schema (resolvedKeyOf td) u.data) (resolvedKeyOf td)
        (normalizedIdentifier td.schema (resolvedKeyOf td) u.key) hcount]
      simp

/-- Witness for C1: against the sample table a statement whose identifier
99 matches no row succeeds as a no-op with count 0. -/
theorem claim_C1_witness :
    sanitizeTableName "brands" = some "brands"
    ∧ runStatement tdBrands.schema (resolvedKeyOf tdBrands) ([rowAlpha, rowBeta], 0)
        ⟨JSValue.num 99, [("name", JSValue.str "x")]⟩ = Except.ok ([rowAlpha, rowBeta], 0) :=
  ⟨by decide,
    (claim_C1_batch_atomicity dbSample "brands" tdBrands
        [⟨JSValue.num 99, [("name", JSValue.str "x")]⟩]
        (by decide) (by decide) (by decide) (by decide)).2
      ([rowAlpha, rowBeta], 0) ⟨JSValue.num 99, [("name", JSValue.str "x")]⟩ (by decide)⟩

/-- C7: for any limit in the allowed range and any offset, over a table
whose identity-column values are pairwise distinct, a page window is
sorted ascending by the identity column, two windows at adjacent offsets
are disjoint, their concatenation is the contiguous segment of the
ordered table starting at the first offset, and with first offset 0 that
concatenation is an initial segment (a take) of the full ordered table. -/
theorem claim_C7_pagination_windows (rows : List Row) (key : String) (limit offset : Nat)
    (hl1 : 1 ≤ limit) (hl2 : limit ≤ 500)
    (hnd : (rows.map (fun r => rowGet r key)).Nodup) :
    (pageRows rows key limit offset).Pairwise (fun a b => rowKeyLe key a b = true)
    ∧ (pageRows rows key limit offset).Disjoint (pageRows rows key limit (offset + limit))
    ∧ pageRows rows key limit offset ++ pageRows rows key limit (offset + limit)
        = ((sortRows rows key).drop offset).take (limit + limit)
    ∧ pageRows rows key limit 0 ++ pageRows rows key limit limit
        = (sortRows rows key).take (limit + limit) := by
  have hsorted : (sortRows rows key).Pairwise (fun a b => rowKeyLe key a b = true) := by
    have hs := @List.sorted_mergeSort Row (rowKeyLe key)
      (fun a b c h1 h2 => rowKeyLe_trans key a b c h1 h2)
      (fun a b => rowKeyLe_total key a b) rows
    simpa [sortRows] using hs
  have hconcat : ∀ off : Nat,
      pageRows rows key limit off ++ pageRows rows key limit (off + limit)
        = ((sortRows rows key).drop off).take (limit + limit) := by
    intro off
    unfold pageRows
    rw [List.take_add]
    congr 1
    rw [List.drop_drop]
  have hperm : List.Perm (sortRows rows key) rows := List.mergeSort_perm rows _
  have hnd_rows : rows.Nodup := List.Nodup.of_map _ hnd
  have hndS : (sortRows rows key).Nodup := hnd_rows.perm hperm.symm
  have hsub : List.Sublist (((sortRows rows key).drop offset).take (limit + limit))
      (sortRows rows key) :=
    (List.take_sublist _ _).trans (List.drop_sublist _ _)
  have hndseg := hndS.sublist hsub
  refine ⟨?_, ?_, hconcat offset, by simpa using hconcat 0⟩
  · have hpsub : List.Sublist (pageRows rows key limit offset) (sortRows rows key) := by
      unfold pageRows
      exact (List.take_sublist _ _).trans (List.drop_sublist _ _)
    exact hsorted.sublist hpsub
  · rw [← hconcat offset] at hndseg
    exact (List.nodup_append.mp hndseg).2.2

/-- Witness for C7: two windows of size one over the sample rows
concatenate into the first two elements of the ordered table. -/
theorem claim_C7_witness :
    (([rowBeta, rowAlpha] : List Row).map (fun r => rowGet r "id")).Nodup
    ∧ pageRows [rowBeta, rowAlpha] "id" 1 0 ++ pageRows [rowBeta, rowAlpha] "id" 1 (0 + 1)
        = ((sortRows [rowBeta, rowAlpha] "id").drop 0).take (1 + 1) :=
  ⟨by decide, (claim_C7_pagination_windows [rowBeta, rowAlpha] "id" 1 0 (by decide)
      (by decide) (by decide)).2.2.1⟩

end INCIScraper
